import Mathlib

/-!
# Verification of the `waynr/image-generator` layer-pool pipeline

This file is a shallow embedding of the core of the `image` package of the
`waynr/image-generator` repository: the deterministic byte generator
(`randBytes`), the file-pool builder (`generateRandomFilePool`), the shuffler
(`shuffleGeneratedFilePaths`), the manifest generator (`generateDockerfile`)
and the archive builder (`createArchive`).  The repository contains two
near-duplicate variants of the factory: the constructor-based one, whose
`randBytes` advances the shared `rand.Rand` source stored in the factory, and
the legacy struct-field one, whose `randBytes` builds a fresh
`rand.NewSource(f.Seed)` on every call.  Both are embedded.

Modelling conventions:
* Go's `math/rand` source is external to the repository; it is modelled as a
  stream `f : Nat → Nat` of successive `Int63()` draws together with an
  explicit position.  Each draw is taken modulo `2 ^ 63`, the range of
  `Int63`.  A fixed seed determines a fixed stream, so "same seed" is
  modelled as "same stream".
* The rejection-sampling loop of `randBytes` and the rejection loop of
  `Int31n` have no a-priori bound on the number of iterations, so they are
  given fuel and return `Option`; `none` means the fuel ran out.
* The filesystem is modelled by explicit maps (a path-exists predicate for
  the pool builder, stat/read/write oracles for the archive builder).
* Byte slices are modelled as `List Char` (every produced byte is an ASCII
  letter), file paths as `String`.
-/

set_option maxRecDepth 10000

namespace ImageGen

/-- The 52-letter alphabet, copied from the constant `letterBytes` of the
source (`a-z` followed by `A-Z`, no digits). -/
def letterBytes : String :=
  "abcdefghijklmnopqrstuvwxyzABCDEFGHIJKLMNOPQRSTUVWXYZ"

/-- `letterBytes` as a list of characters (Go indexes the constant string by
byte; every byte of it is a one-byte ASCII character). -/
def letterList : List Char := letterBytes.toList

/-- `letterIdxBits = 6`: bits used to represent a letter index. -/
def letterIdxBits : Nat := 6

/-- `letterIdxMask = 1<<letterIdxBits - 1`: all 1-bits, as many as
`letterIdxBits`. -/
def letterIdxMask : Nat := 2 ^ letterIdxBits - 1

/-- `letterIdxMax = 63 / letterIdxBits`: number of letter indices fitting in
the 63 bits of one `Int63()` draw. -/
def letterIdxMax : Nat := 63 / letterIdxBits

/-- One iteration-at-a-time embedding of the loop of
`RandomImageFactory.randBytes` (constructor-based variant, source lines
224-240):

    for i, cache, remain := n-1, f.src.Int63(), letterIdxMax; i >= 0; {
        if remain == 0 { cache, remain = f.src.Int63(), letterIdxMax }
        if idx := int(cache & letterIdxMask); idx < len(letterBytes) {
            b[i] = letterBytes[idx]; i--
        }
        cache >>= letterIdxBits
        remain--
    }

`k` is the number of bytes still to be produced (`i + 1`), `pos` the position
of the next unread draw of the stream `f`, `acc` the bytes produced so far
(the Go loop fills the slice back to front, so consing each newly produced
byte onto `acc` yields the slice in its final front-to-back order).  `fuel`
bounds the number of loop iterations. -/
def randBytesAux (f : Nat → Nat) : Nat → Nat → Nat → Nat → Nat → List Char →
    Option (List Char × Nat)
  | _, 0, _, _, pos, acc => some (acc, pos)
  | 0, _ + 1, _, _, _, _ => none
  | fuel + 1, k + 1, cache0, remain0, pos0, acc =>
    let cache := if remain0 = 0 then f pos0 % 2 ^ 63 else cache0
    let pos := if remain0 = 0 then pos0 + 1 else pos0
    let remain := if remain0 = 0 then letterIdxMax else remain0
    let idx := cache.land letterIdxMask
    if idx < letterList.length then
      randBytesAux f fuel k (cache >>> letterIdxBits) (remain - 1) pos
        (letterList.getD idx 'a' :: acc)
    else
      randBytesAux f fuel (k + 1) (cache >>> letterIdxBits) (remain - 1) pos acc

/-- `RandomImageFactory.randBytes` (constructor-based variant): produce `n`
bytes from the shared source, whose next unread draw is at position `pos` of
the stream `f`.  The initial `cache` draw happens in the loop's init
statement, before the `i >= 0` test, so one draw is consumed even when
`n = 0`.  Returns the produced bytes and the new stream position. -/
def randBytes (f : Nat → Nat) (pos n fuel : Nat) : Option (List Char × Nat) :=
  randBytesAux f fuel n (f pos % 2 ^ 63) letterIdxMax (pos + 1) []

/-- `RandomImageFactory.randBytes` (legacy struct-field variant, source lines
445-462): identical loop, but the source is rebuilt by
`rand.NewSource(f.Seed)` at the top of every call, so every call reads the
seed's stream from position `0`.  Only the bytes are returned (no position
survives the call: the source is dropped). -/
def randBytesLegacy (f : Nat → Nat) (n fuel : Nat) : Option (List Char) :=
  (randBytes f 0 n fuel).map Prod.fst

/-- Length/alphabet invariant of the `randBytes` loop: a successful run
produces exactly `k` new bytes, each taken from `letterList`, in front of the
accumulator. -/
theorem randBytesAux_spec (f : Nat → Nat) :
    ∀ (fuel k cache remain pos : Nat) (acc b : List Char) (pos' : Nat),
      randBytesAux f fuel k cache remain pos acc = some (b, pos') →
      b.length = k + acc.length ∧ ∀ c ∈ b, c ∈ letterList ∨ c ∈ acc := by
  intro fuel
  induction fuel with
  | zero =>
    intro k cache remain pos acc b pos' h
    match k with
    | 0 =>
      simp only [randBytesAux, Option.some.injEq, Prod.mk.injEq] at h
      obtain ⟨rfl, rfl⟩ := h
      exact ⟨by simp, fun c hc => Or.inr hc⟩
    | _ + 1 =>
      simp only [randBytesAux] at h
      exact Option.noConfusion h
  | succ fuel ih =>
    intro k cache remain pos acc b pos' h
    match k with
    | 0 =>
      simp only [randBytesAux, Option.some.injEq, Prod.mk.injEq] at h
      obtain ⟨rfl, rfl⟩ := h
      exact ⟨by simp, fun c hc => Or.inr hc⟩
    | k + 1 =>
      simp only [randBytesAux] at h
      have main : ∀ (c r p : Nat),
          (if c.land letterIdxMask < letterList.length then
              randBytesAux f fuel k (c >>> letterIdxBits) (r - 1) p
                (letterList.getD (c.land letterIdxMask) 'a' :: acc)
            else randBytesAux f fuel (k + 1) (c >>> letterIdxBits) (r - 1) p acc)
            = some (b, pos') →
          b.length = k + 1 + acc.length ∧ ∀ c' ∈ b, c' ∈ letterList ∨ c' ∈ acc := by
    -- one loop iteration: either a byte is accepted or the index is rejected
        intro c r p h
        split at h
        · rename_i hidx
          obtain ⟨hlen, hmem⟩ := ih _ _ _ _ _ _ _ h
          refine ⟨by simp only [List.length_cons] at hlen; omega, fun c' hc => ?_⟩
          rcases hmem c' hc with hl | hl
          · exact Or.inl hl
          · rcases List.mem_cons.mp hl with rfl | hl
            · exact Or.inl (List.getD_eq_getElem letterList 'a' hidx ▸
                letterList.getElem_mem hidx)
            · exact Or.inr hl
        · obtain ⟨hlen, hmem⟩ := ih _ _ _ _ _ _ _ h
          exact ⟨hlen, hmem⟩
      split at h
      · exact main _ _ _ h
      · exact main _ _ _ h

/-- Claim C1: for every seed (modelled as its `Int63` draw stream), stream
position, layer size and fuel, two runs of the Deterministic Byte Generator
with the same seed and the same requested length produce byte-for-byte
identical output: `randBytes` is a deterministic function of the seed's draw
stream, the position and the length. -/
theorem C1_randBytes_deterministic (f g : Nat → Nat) (pos n fuel : Nat)
    (h : ∀ i, f i = g i) :
    randBytes f pos n fuel = randBytes g pos n fuel := by
  have hf : f = g := funext h
  subst hf
  rfl

/-- Witness for C1 at the concrete all-zero draw stream, `n = 3`. -/
theorem C1_witness :
    randBytes (fun _ => 0) 0 3 32 = randBytes (fun _ => 0) 0 3 32 :=
  C1_randBytes_deterministic (fun _ => 0) (fun _ => 0) 0 3 32 (fun _ => rfl)

/-- Claim C2: a successful run of the Deterministic Byte Generator on
requested length `n` returns exactly `n` bytes, every byte is a character of
the alphabet `letterBytes`, and that alphabet has exactly 52 symbols
(`a-z` and `A-Z`, no digits). -/
theorem C2_randBytes_length_alphabet (f : Nat → Nat) (pos n fuel : Nat)
    (b : List Char) (pos' : Nat)
    (h : randBytes f pos n fuel = some (b, pos')) :
    b.length = n ∧ (∀ c ∈ b, c ∈ letterBytes.toList) ∧
      letterBytes.toList.length = 52 := by
  obtain ⟨hlen, hmem⟩ := randBytesAux_spec f _ _ _ _ _ _ _ _ h
  refine ⟨by simpa using hlen, fun c hc => ?_, by decide⟩
  rcases hmem c hc with hl | hl
  · exact hl
  · cases hl

/-- Witness for C2 at the concrete all-zero draw stream, `n = 3` (the
produced bytes are three letters `a`). -/
theorem C2_witness : (['a', 'a', 'a'] : List Char).length = 3 :=
  (C2_randBytes_length_alphabet (fun _ => 0) 0 3 32 ['a', 'a', 'a'] 1 (by decide)).1

/-- Stream position never decreases across a run of the `randBytes` loop. -/
theorem randBytesAux_pos_le (f : Nat → Nat) :
    ∀ (fuel k cache remain pos : Nat) (acc b : List Char) (pos' : Nat),
      randBytesAux f fuel k cache remain pos acc = some (b, pos') →
      pos ≤ pos' := by
  intro fuel
  induction fuel with
  | zero =>
    intro k cache remain pos acc b pos' h
    match k with
    | 0 =>
      simp only [randBytesAux, Option.some.injEq, Prod.mk.injEq] at h
      exact h.2.le
    | _ + 1 =>
      simp only [randBytesAux] at h
      exact Option.noConfusion h
  | succ fuel ih =>
    intro k cache remain pos acc b pos' h
    match k with
    | 0 =>
      simp only [randBytesAux, Option.some.injEq, Prod.mk.injEq] at h
      exact h.2.le
    | k + 1 =>
      simp only [randBytesAux] at h
      have main : ∀ (c r p : Nat), pos ≤ p →
          (if c.land letterIdxMask < letterList.length then
              randBytesAux f fuel k (c >>> letterIdxBits) (r - 1) p
                (letterList.getD (c.land letterIdxMask) 'a' :: acc)
            else randBytesAux f fuel (k + 1) (c >>> letterIdxBits) (r - 1) p acc)
            = some (b, pos') →
          pos ≤ pos' := by
        intro c r p hp h
        split at h
        · exact hp.trans (ih _ _ _ _ _ _ _ h)
        · exact hp.trans (ih _ _ _ _ _ _ _ h)
      split at h
      · exact main _ _ _ (Nat.le_succ pos) h
      · exact main _ _ _ le_rfl h

/-- A successful `randBytes` run strictly advances the stream position (at
least the unconditional initial draw is consumed, even for `n = 0`). -/
theorem randBytes_pos_lt (f : Nat → Nat) (pos n fuel : Nat) (b : List Char)
    (pos' : Nat) (h : randBytes f pos n fuel = some (b, pos')) : pos < pos' :=
  Nat.lt_of_succ_le (randBytesAux_pos_le f fuel n _ letterIdxMax (pos + 1) [] b pos' h)

/-- Loop body of `RandomImageFactory.generateRandomFilePool` (constructor
variant, source lines 164-188), iterating file indices `i` upward while `rem`
files remain.  For each index: if the file already exists on disk
(`os.Stat` succeeds) it is skipped without touching the random source;
otherwise its content is drawn from the shared source by
`f.randBytes(1024*layerSizeKB)`, advancing the stream position.  Each list
entry records what was written for that index: `none` for a skipped file,
`some b` for a freshly written file with content `b`.  The final stream
position is returned alongside. -/
def generateRandomFilePoolAux (f : Nat → Nat) (fuel sizeKB : Nat)
    (onDisk : Nat → Bool) : Nat → Nat → Nat → Option (List (Option (List Char)) × Nat)
  | _, pos, 0 => some ([], pos)
  | i, pos, rem + 1 =>
    if onDisk i then
      (generateRandomFilePoolAux f fuel sizeKB onDisk (i + 1) pos rem).map
        (fun r => (none :: r.1, r.2))
    else
      match randBytes f pos (1024 * sizeKB) fuel with
      | none => none
      | some (b, pos') =>
        (generateRandomFilePoolAux f fuel sizeKB onDisk (i + 1) pos' rem).map
          (fun r => (some b :: r.1, r.2))

/-- `RandomImageFactory.generateRandomFilePool` (constructor variant): the
shared source is fresh from the seed when the pool is generated (pool
generation is the first consumer of the source in `GenerateImage`), so the
stream position starts at `0`. -/
def generateRandomFilePool (f : Nat → Nat) (fuel sizeKB count : Nat)
    (onDisk : Nat → Bool) : Option (List (Option (List Char)) × Nat) :=
  generateRandomFilePoolAux f fuel sizeKB onDisk 0 0 count

/-- Handling of one additional file at index `i`, starting from the pool
state `r` (entries so far, current stream position): skip if on disk, else
draw the content at the current position. -/
def poolStep (f : Nat → Nat) (fuel sizeKB : Nat) (onDisk : Nat → Bool) (i : Nat)
    (r : List (Option (List Char)) × Nat) : Option (List (Option (List Char)) × Nat) :=
  if onDisk i then some (r.1 ++ [none], r.2)
  else
    match randBytes f r.2 (1024 * sizeKB) fuel with
    | none => none
    | some (b, pos') => some (r.1 ++ [some b], pos')

/-- Loop body of the legacy `RandomImageFactory.generateRandomFilePool`
(struct-field variant, source lines 384-408): identical skip logic, but the
content of every freshly written file is `f.randBytes(1024*f.LayerSizeKB)`
with the legacy `randBytes`, which re-seeds from `f.Seed` on every call.  No
stream position is threaded: none survives between calls. -/
def generateRandomFilePoolLegacyAux (f : Nat → Nat) (fuel sizeKB : Nat)
    (onDisk : Nat → Bool) : Nat → Nat → Option (List (Option (List Char)))
  | _, 0 => some []
  | i, rem + 1 =>
    if onDisk i then
      (generateRandomFilePoolLegacyAux f fuel sizeKB onDisk (i + 1) rem).map
        (fun l => none :: l)
    else
      match randBytesLegacy f (1024 * sizeKB) fuel with
      | none => none
      | some b =>
        (generateRandomFilePoolLegacyAux f fuel sizeKB onDisk (i + 1) rem).map
          (fun l => some b :: l)

/-- Legacy `RandomImageFactory.generateRandomFilePool` over all `count`
files. -/
def generateRandomFilePoolLegacy (f : Nat → Nat) (fuel sizeKB count : Nat)
    (onDisk : Nat → Bool) : Option (List (Option (List Char))) :=
  generateRandomFilePoolLegacyAux f fuel sizeKB onDisk 0 count

/-- Content written for file `i` by a constructor-variant pool run (`none`
if the run failed or the file was skipped). -/
def poolFile (r : Option (List (Option (List Char)) × Nat)) (i : Nat) :
    Option (List Char) :=
  match r with
  | some (l, _) => l.getD i none
  | none => none

/-- Content written for file `i` by a legacy-variant pool run. -/
def poolFileLegacy (r : Option (List (Option (List Char)))) (i : Nat) :
    Option (List Char) :=
  match r with
  | some l => l.getD i none
  | none => none

/-- `poolStep` commutes with consing an already-produced entry in front of
the accumulated pool. -/
theorem poolStep_cons (f : Nat → Nat) (fuel sizeKB : Nat) (onDisk : Nat → Bool)
    (s : Nat) (x : Option (List Char)) (l : List (Option (List Char))) (p : Nat) :
    poolStep f fuel sizeKB onDisk s (x :: l, p) =
      (poolStep f fuel sizeKB onDisk s (l, p)).map (fun r => (x :: r.1, r.2)) := by
  cases hd : onDisk s <;>
    rcases hr : randBytes f p (1024 * sizeKB) fuel with _ | ⟨b, p'⟩ <;>
      simp [poolStep, hd, hr]

/-- One-step unfolding of the pool loop (definitional). -/
theorem generateRandomFilePoolAux_unfold (f : Nat → Nat) (fuel sizeKB : Nat)
    (onDisk : Nat → Bool) (i pos rem : Nat) :
    generateRandomFilePoolAux f fuel sizeKB onDisk i pos (rem + 1) =
      if onDisk i then
        (generateRandomFilePoolAux f fuel sizeKB onDisk (i + 1) pos rem).map
          (fun r => (none :: r.1, r.2))
      else
        match randBytes f pos (1024 * sizeKB) fuel with
        | none => none
        | some (b, pos') =>
          (generateRandomFilePoolAux f fuel sizeKB onDisk (i + 1) pos' rem).map
            (fun r => (some b :: r.1, r.2)) := rfl

/-- Peeling the last file off a pool run: generating `rem + 1` files from
index `i` is generating `rem` files and then handling file `i + rem` from the
resulting state. -/
theorem generateRandomFilePoolAux_succ (f : Nat → Nat) (fuel sizeKB : Nat)
    (onDisk : Nat → Bool) :
    ∀ (rem i pos : Nat),
      generateRandomFilePoolAux f fuel sizeKB onDisk i pos (rem + 1) =
        (generateRandomFilePoolAux f fuel sizeKB onDisk i pos rem).bind
          (poolStep f fuel sizeKB onDisk (i + rem)) := by
  intro rem
  induction rem with
  | zero =>
    intro i pos
    cases hd : onDisk i <;>
      rcases hr : randBytes f pos (1024 * sizeKB) fuel with _ | ⟨b, p'⟩ <;>
        simp [generateRandomFilePoolAux, poolStep, hd, hr]
  | succ rem ih =>
    intro i pos
    rw [generateRandomFilePoolAux_unfold f fuel sizeKB onDisk i pos (rem + 1),
      generateRandomFilePoolAux_unfold f fuel sizeKB onDisk i pos rem]
    cases hd : onDisk i
    · -- file `i` freshly generated
      simp only [hd, Bool.false_eq_true, if_false]
      rcases hr : randBytes f pos (1024 * sizeKB) fuel with _ | ⟨b, p'⟩
      · simp [hr]
      · simp only [hr]
        rw [ih]
        cases ha : generateRandomFilePoolAux f fuel sizeKB onDisk (i + 1) p' rem with
        | none => simp
        | some r =>
          rcases r with ⟨l, p⟩
          have h1 : i + 1 + rem = i + (rem + 1) := by omega
          simp [ha, h1, poolStep_cons]
    · -- file `i` skipped
      simp only [hd, if_true]
      rw [ih]
      cases ha : generateRandomFilePoolAux f fuel sizeKB onDisk (i + 1) pos rem with
      | none => simp
      | some r =>
        rcases r with ⟨l, p⟩
        have h1 : i + 1 + rem = i + (rem + 1) := by omega
        simp [ha, h1, poolStep_cons]

/-- Claim C3 (amended to the constructor-based variant): the pool builder
advances one shared random source across all files and never resets it: if
generating `N` files leaves state `r` (entries and stream position), then
generating `N + 1` files handles file `N` starting exactly at `r`'s stream
position — file `N`'s content is the next portion of the seed's stream after
the bytes consumed for files `0..N-1` — and a successful draw strictly
advances the stream position, so distinct written files of one run are drawn
at distinct, strictly increasing stream positions.  (In the legacy
struct-field variant the source is rebuilt from the seed for every file; see
the counterexample.) -/
theorem C3_pool_shared_source_advances (f : Nat → Nat) (fuel sizeKB N : Nat)
    (onDisk : Nat → Bool) (r : List (Option (List Char)) × Nat)
    (h : generateRandomFilePool f fuel sizeKB N onDisk = some r) :
    generateRandomFilePool f fuel sizeKB (N + 1) onDisk =
      poolStep f fuel sizeKB onDisk N r ∧
    r.2 + 1 ≤ (((randBytes f r.2 (1024 * sizeKB) fuel).map Prod.snd).getD (r.2 + 1)) := by
  constructor
  · have hsucc := generateRandomFilePoolAux_succ f fuel sizeKB onDisk N 0 0
    unfold generateRandomFilePool at h ⊢
    rw [hsucc, h]
    simp
  · rcases hr : randBytes f r.2 (1024 * sizeKB) fuel with _ | ⟨b, p'⟩
    · simp
    · simpa using randBytes_pos_lt f r.2 (1024 * sizeKB) fuel b p' hr

/-- Witness for C3 at a concrete run: all-zero stream, `sizeKB = 0`,
`N = 1`, empty disk. -/
theorem C3_witness :
    generateRandomFilePool (fun _ => 0) 32 0 2 (fun _ => false) =
      poolStep (fun _ => 0) 32 0 (fun _ => false) 1 ([some []], 1) ∧
    1 + 1 ≤ (((randBytes (fun _ => 0) 1 0 32).map Prod.snd).getD 2) :=
  C3_pool_shared_source_advances (fun _ => 0) 32 0 1 (fun _ => false)
    ([some []], 1) (by decide)

/-- Draw stream used for the C3 counterexample: first `Int63` draw is `0`,
all later draws are `1`. -/
def c3stream : Nat → Nat := fun i => if i = 0 then 0 else 1

/-- Counterexample to Claim C3 as stated: in the legacy struct-field variant
(whose `randBytes`, source lines 445-462, rebuilds `rand.NewSource(f.Seed)`
on every call) the generator IS reset per file.  Concretely, for the stream
`c3stream`, `sizeKB = 1`, `count = 2`, empty disk: file 0's content agrees
with the shared-source run (both read the stream from position 0), but file
1's content is NOT the next portion of the stream after file 0 (it equals
file 0's content instead of the shared-source run's file 1). -/
theorem C3_counterexample :
    poolFileLegacy (generateRandomFilePoolLegacy c3stream 2000 1 2 (fun _ => false)) 0 =
      poolFileLegacy (generateRandomFilePoolLegacy c3stream 2000 1 2 (fun _ => false)) 1 ∧
    poolFileLegacy (generateRandomFilePoolLegacy c3stream 2000 1 2 (fun _ => false)) 0 =
      poolFile (generateRandomFilePool c3stream 2000 1 2 (fun _ => false)) 0 ∧
    poolFileLegacy (generateRandomFilePoolLegacy c3stream 2000 1 2 (fun _ => false)) 1 ≠
      poolFile (generateRandomFilePool c3stream 2000 1 2 (fun _ => false)) 1 := by
  refine ⟨rfl, rfl, by decide⟩

/-- If every file in range is already on disk, the pool loop writes nothing
(`none` entry for every index) and never touches the random source (the
stream position is returned unchanged). -/
theorem generateRandomFilePoolAux_all_on_disk (f : Nat → Nat) (fuel sizeKB : Nat)
    (onDisk : Nat → Bool) :
    ∀ (rem i pos : Nat), (∀ k, k < rem → onDisk (i + k) = true) →
      generateRandomFilePoolAux f fuel sizeKB onDisk i pos rem =
        some (List.replicate rem none, pos) := by
  intro rem
  induction rem with
  | zero => intro i pos _; rfl
  | succ rem ih =>
    intro i pos hall
    rw [generateRandomFilePoolAux_unfold]
    have h0 : onDisk i = true := by simpa using hall 0 (Nat.succ_pos rem)
    rw [if_pos h0, ih (i + 1) pos ?_]
    · simp [List.replicate_succ]
    · intro k hk
      have h1 := hall (k + 1) (by omega)
      have h2 : i + 1 + k = i + (k + 1) := by omega
      rw [h2]
      exact h1

/-- Claim C6: file-pool generation is idempotent.  If every deterministic
path of the `count` files already exists on disk, a pool run performs zero
writes: it skips every file (a `none` entry for each of the `count` indices)
and leaves the random source untouched (final stream position `0`), so a
second call with the same seed, size, count and directory — whose `os.Stat`
succeeds for every path the first call created — writes nothing and leaves
all existing contents (and hence modification timestamps) unchanged. -/
theorem C6_pool_idempotent (f : Nat → Nat) (fuel sizeKB count : Nat)
    (onDisk : Nat → Bool) (h : ∀ i, i < count → onDisk i = true) :
    generateRandomFilePool f fuel sizeKB count onDisk =
      some (List.replicate count none, 0) :=
  generateRandomFilePoolAux_all_on_disk f fuel sizeKB onDisk count 0 0
    (fun k hk => by simpa using h k hk)

/-- Witness for C6: a rerun over three already-existing files writes
nothing. -/
theorem C6_witness :
    generateRandomFilePool (fun _ => 0) 32 1 3 (fun _ => true) =
      some (List.replicate 3 none, 0) :=
  C6_pool_idempotent (fun _ => 0) 32 1 3 (fun _ => true) (fun _ _ => rfl)

/-- Every entry of a successful legacy pool run is either skipped (`none`)
or carries the bytes of `randBytesLegacy` — the same value for every file,
since the legacy `randBytes` re-seeds from `f.Seed` on each call. -/
theorem generateRandomFilePoolLegacyAux_entries (f : Nat → Nat)
    (fuel sizeKB : Nat) (onDisk : Nat → Bool) :
    ∀ (rem i : Nat) (l : List (Option (List Char))),
      generateRandomFilePoolLegacyAux f fuel sizeKB onDisk i rem = some l →
      ∀ e ∈ l, e = none ∨ e = randBytesLegacy f (1024 * sizeKB) fuel := by
  intro rem
  induction rem with
  | zero =>
    intro i l h e he
    simp only [generateRandomFilePoolLegacyAux, Option.some.injEq] at h
    subst h
    cases he
  | succ rem ih =>
    intro i l h e he
    simp only [generateRandomFilePoolLegacyAux] at h
    split at h
    · -- skipped file consed in front
      rcases Option.map_eq_some'.mp h with ⟨l', hl', rfl⟩
      rcases List.mem_cons.mp he with rfl | he'
      · exact Or.inl rfl
      · exact ih (i + 1) l' hl' e he'
    · -- freshly written file consed in front
      split at h
      · exact Option.noConfusion h
      · rename_i b hr
        rcases Option.map_eq_some'.mp h with ⟨l', hl', rfl⟩
        rcases List.mem_cons.mp he with rfl | he'
        · exact Or.inr hr.symm
        · exact ih (i + 1) l' hl' e he'

/-- Claim C10: in the legacy struct-field variant (the one the CLI `build`
command constructs), every `randBytes` call rebuilds `rand.NewSource(f.Seed)`,
so every written entry of one pool run carries the same byte slice
`randBytesLegacy f (1024 * sizeKB) fuel`; in particular any two written
files of one run (which all share the single layer size) have identical
content. -/
theorem C10_legacy_reseeds_every_call (f : Nat → Nat) (fuel sizeKB count : Nat)
    (onDisk : Nat → Bool) (l : List (Option (List Char)))
    (h : generateRandomFilePoolLegacy f fuel sizeKB count onDisk = some l) :
    (∀ e ∈ l, e = none ∨ e = randBytesLegacy f (1024 * sizeKB) fuel) ∧
      ∀ e₁ ∈ l, ∀ e₂ ∈ l, e₁.isSome = true → e₂.isSome = true → e₁ = e₂ := by
  have hmain := generateRandomFilePoolLegacyAux_entries f fuel sizeKB onDisk count 0 l h
  refine ⟨hmain, fun e₁ h₁ e₂ h₂ hs₁ hs₂ => ?_⟩
  rcases hmain e₁ h₁ with rfl | r₁
  · simp at hs₁
  · rcases hmain e₂ h₂ with rfl | r₂
    · simp at hs₂
    · rw [r₁, r₂]

/-- Witness for C10: in a concrete legacy run with two written files, file
0's entry equals file 1's entry. -/
theorem C10_witness : (some ([] : List Char)) = some ([] : List Char) :=
  (C10_legacy_reseeds_every_call (fun _ => 0) 32 0 2 (fun _ => false)
      [some [], some []] (by decide)).2
    (some []) (by decide) (some []) (by decide) rfl rfl

/-! ## The shuffler

`shuffleGeneratedFilePaths` (source lines 157-162) runs

    for i := range f.allGeneratedFiles {
        j := f.src.Intn(i + 1)
        f.allGeneratedFiles[i], f.allGeneratedFiles[j] = f.allGeneratedFiles[j], f.allGeneratedFiles[i]
    }

`Intn` is `math/rand`'s: for `0 < n ≤ 2^31 - 1` (always the case here, since
`n = i + 1` is bounded by the list length) it returns `Int31n(int32(n))`,
where `Int31()` is the top 32 bits of an `Int63()` draw and `Int31n` takes
the power-of-two fast path `Int31() & (n-1)` when `n` is a power of two and
otherwise rejection-samples `Int31()` draws above
`2^31 - 1 - (2^31 mod n)` before reducing modulo `n`. -/

/-- Rejection loop of `Int31n`: draw `Int31()` values until one is at most
`mx`, then reduce it modulo `n`. -/
def int31nAux (f : Nat → Nat) (n mx : Nat) : Nat → Nat → Option (Nat × Nat)
  | 0, _ => none
  | fuel + 1, pos =>
    let v := (f pos % 2 ^ 63) >>> 32
    if v > mx then int31nAux f n mx fuel (pos + 1)
    else some (v % n, pos + 1)

/-- `math/rand`'s `Int31n` on the stream of `Int63()` draws. -/
def int31n (f : Nat → Nat) (fuel n pos : Nat) : Option (Nat × Nat) :=
  if n &&& (n - 1) = 0 then
    some (((f pos % 2 ^ 63) >>> 32) &&& (n - 1), pos + 1)
  else
    int31nAux f n (2 ^ 31 - 1 - 2 ^ 31 % n) fuel pos

/-- `math/rand`'s `Intn(n)` for the small arguments the shuffle uses
(`0 < n ≤ 2^31 - 1`): the `Int31n` path. -/
def intn (f : Nat → Nat) (fuel n pos : Nat) : Option (Nat × Nat) :=
  int31n f fuel n pos

/-- The rejection loop returns a value below `n`. -/
theorem int31nAux_lt (f : Nat → Nat) (n mx : Nat) (hn : 0 < n) :
    ∀ (fuel pos j p' : Nat), int31nAux f n mx fuel pos = some (j, p') →
      j < n := by
  intro fuel
  induction fuel with
  | zero => intro pos j p' h; exact Option.noConfusion h
  | succ fuel ih =>
    intro pos j p' h
    simp only [int31nAux] at h
    split at h
    · exact ih _ _ _ h
    · simp only [Option.some.injEq, Prod.mk.injEq] at h
      exact h.1 ▸ Nat.mod_lt _ hn

/-- `Intn(n)` returns an index in `[0, n)`. -/
theorem intn_lt (f : Nat → Nat) (fuel n pos : Nat) (hn : 0 < n) (j p' : Nat)
    (h : intn f fuel n pos = some (j, p')) : j < n := by
  unfold intn int31n at h
  split at h
  · simp only [Option.some.injEq, Prod.mk.injEq] at h
    have hle : ((f pos % 2 ^ 63) >>> 32) &&& (n - 1) ≤ n - 1 := Nat.and_le_right
    omega
  · exact int31nAux_lt f n _ hn fuel pos j p' h

/-- The parallel-assignment swap
`l[i], l[j] = l[j], l[i]` of the Go shuffle: both right-hand sides are read
from the original list before either write. -/
def listSwap (l : List String) (i j : Nat) : List String :=
  (l.set i (l.getD j "")).set j (l.getD i "")

/-- The shuffle loop: `i` is the current index, `rem` the number of
indices still to visit, `pos` the stream position of the shared random
source. -/
def shuffleAux (f : Nat → Nat) (fuel : Nat) : Nat → Nat → List String → Nat →
    Option (List String × Nat)
  | _, 0, l, pos => some (l, pos)
  | i, rem + 1, l, pos =>
    match intn f fuel (i + 1) pos with
    | none => none
    | some (j, pos') => shuffleAux f fuel (i + 1) rem (listSwap l i j) pos'

/-- `RandomImageFactory.shuffleGeneratedFilePaths` (constructor variant):
visit indices `0 .. l.length - 1`, at each swapping element `i` with the
element at `Intn(i+1) ∈ [0, i]`, consuming the shared source from position
`pos`. -/
def shuffleGeneratedFilePaths (f : Nat → Nat) (fuel : Nat) (l : List String)
    (pos : Nat) : Option (List String × Nat) :=
  shuffleAux f fuel 0 l.length l pos

/-- Swapping preserves length. -/
theorem listSwap_length (l : List String) (i j : Nat) :
    (listSwap l i j).length = l.length := by
  simp [listSwap]

/-- Pulling the element at index `k` to the front while writing `a` into its
slot permutes `a :: t`. -/
theorem getD_cons_set_perm :
    ∀ (t : List String) (k : Nat), k < t.length → ∀ (a : String),
      List.Perm (t.getD k "" :: t.set k a) (a :: t) := by
  intro t
  induction t with
  | nil => intro k hk; cases hk
  | cons x t ih =>
    intro k hk a
    match k with
    | 0 =>
      simp only [List.getD_cons_zero, List.set_cons_zero]
      exact List.Perm.swap a x t
    | m + 1 =>
      simp only [List.getD_cons_succ, List.set_cons_succ]
      have h1 : List.Perm (t.getD m "" :: x :: t.set m a)
          (x :: t.getD m "" :: t.set m a) := List.Perm.swap x (t.getD m "") _
      have h2 : List.Perm (x :: t.getD m "" :: t.set m a) (x :: a :: t) :=
        List.Perm.cons x (ih m (by simpa using hk) a)
      exact (h1.trans h2).trans (List.Perm.swap a x t)

/-- A swap of two in-range positions is a permutation of the list. -/
theorem listSwap_perm :
    ∀ (l : List String) (i j : Nat), i < l.length → j < l.length →
      List.Perm (listSwap l i j) l := by
  intro l
  induction l with
  | nil => intro i j hi; cases hi
  | cons x t ih =>
    intro i j hi hj
    match i, j with
    | 0, 0 =>
      simp only [listSwap, List.getD_cons_zero, List.set_cons_zero]
      exact List.Perm.refl _
    | 0, m + 1 =>
      simp only [listSwap, List.getD_cons_zero, List.getD_cons_succ,
        List.set_cons_zero, List.set_cons_succ]
      exact getD_cons_set_perm t m (by simpa using hj) x
    | k + 1, 0 =>
      simp only [listSwap, List.getD_cons_zero, List.getD_cons_succ,
        List.set_cons_zero, List.set_cons_succ]
      exact getD_cons_set_perm t k (by simpa using hi) x
    | k + 1, m + 1 =>
      simp only [listSwap, List.getD_cons_succ, List.set_cons_succ]
      exact List.Perm.cons x (ih k m (by simpa using hi) (by simpa using hj))

/-- A successful run of the shuffle loop permutes its list. -/
theorem shuffleAux_perm (f : Nat → Nat) (fuel : Nat) :
    ∀ (rem i : Nat) (l : List String) (pos : Nat) (l' : List String)
      (pos' : Nat), i + rem ≤ l.length →
      shuffleAux f fuel i rem l pos = some (l', pos') → List.Perm l' l := by
  intro rem
  induction rem with
  | zero =>
    intro i l pos l' pos' _ h
    simp only [shuffleAux, Option.some.injEq, Prod.mk.injEq] at h
    exact h.1 ▸ List.Perm.refl l
  | succ rem ih =>
    intro i l pos l' pos' hle h
    simp only [shuffleAux] at h
    rcases hr : intn f fuel (i + 1) pos with _ | ⟨j, p'⟩ <;> rw [hr] at h
    · exact Option.noConfusion h
    · have hj : j < i + 1 := intn_lt f fuel (i + 1) pos (Nat.succ_pos i) j p' hr
      have hi : i < l.length := by omega
      have hjl : j < l.length := by omega
      have hlen : (listSwap l i j).length = l.length := listSwap_length l i j
      have hperm := ih (i + 1) (listSwap l i j) p' l' pos' (by omega) h
      exact hperm.trans (listSwap_perm l i j hi hjl)

/-- Claim C5: the Shuffler permutes the file-path list by the stated
Fisher-Yates steps (for each `i` it swaps element `i` with the element at
`Intn(i+1) ∈ [0, i]`); a successful run returns a permutation of the input
list — same multiset of elements and same length. -/
theorem C5_shuffle_is_permutation (f : Nat → Nat) (fuel : Nat)
    (l : List String) (pos : Nat) (l' : List String) (pos' : Nat)
    (h : shuffleGeneratedFilePaths f fuel l pos = some (l', pos')) :
    List.Perm l' l ∧ l'.length = l.length := by
  have hperm := shuffleAux_perm f fuel l.length 0 l pos l' pos' (by omega) h
  exact ⟨hperm, hperm.length_eq⟩

/-- Witness for C5: shuffling `["a", "b", "c"]` with the all-zero stream
succeeds and yields `["c", "a", "b"]`, a permutation of the input. -/
theorem C5_witness :
    List.Perm (["c", "a", "b"] : List String) ["a", "b", "c"] ∧
      (["c", "a", "b"] : List String).length =
        (["a", "b", "c"] : List String).length :=
  C5_shuffle_is_permutation (fun _ => 0) 32 ["a", "b", "c"] 0 ["c", "a", "b"] 3
    (by decide)

/-- Claim C4: for a fixed seed (a fixed `Int63` draw stream) and a fixed
input list, the Shuffler is deterministic: two runs from the same stream,
position and input ordering produce the same permutation. -/
theorem C4_shuffle_deterministic (f g : Nat → Nat) (fuel : Nat)
    (l : List String) (pos : Nat) (h : ∀ i, f i = g i) :
    shuffleGeneratedFilePaths f fuel l pos =
      shuffleGeneratedFilePaths g fuel l pos := by
  have hf : f = g := funext h
  subst hf
  rfl

/-- Witness for C4 at the concrete all-zero draw stream. -/
theorem C4_witness :
    shuffleGeneratedFilePaths (fun _ => 0) 32 ["a", "b"] 0 =
      shuffleGeneratedFilePaths (fun _ => 0) 32 ["a", "b"] 0 :=
  C4_shuffle_deterministic (fun _ => 0) (fun _ => 0) 32 ["a", "b"] 0
    (fun _ => rfl)

/-! ## The manifest generator -/

/-- Text produced by `RandomImageFactory.generateDockerfile` (source lines
190-204): start from the fixed header and append one
`ADD <path> /opt` line per file path, in order (the Go loop is
`dockerFile += fmt.Sprintf("ADD %s /opt\n", path)`).  Only the produced text
is modelled; the write of it to `./dockerfile.generated` either succeeds,
returning that fixed path, or is a fatal error. -/
def generateDockerfile (filePaths : List String) : String :=
  filePaths.foldl (fun acc p => acc ++ ("ADD " ++ p ++ " /opt\n")) "FROM scratch\n"

/-- The manifest body shape stated by the spec: one inclusion-directive line
per file, in order. -/
def directiveLines : List String → String
  | [] => ""
  | p :: rest => ("ADD " ++ p ++ " /opt\n") ++ directiveLines rest

/-- Folding appends from `a` produces `a` followed by the directive lines. -/
theorem foldl_append_directives :
    ∀ (l : List String) (a : String),
      l.foldl (fun acc p => acc ++ ("ADD " ++ p ++ " /opt\n")) a =
        a ++ directiveLines l := by
  intro l
  induction l with
  | nil => intro a; simp [directiveLines]
  | cons x t ih =>
    intro a
    simp only [List.foldl_cons, directiveLines]
    rw [ih, String.append_assoc]

/-- Claim C7: for every (shuffled) file-path list, the manifest is exactly
the fixed header line followed by one inclusion-directive line per file, in
list order, each directive referencing that file's path; for the empty list
(count = 0) it is the header alone. -/
theorem C7_manifest_header_then_directives (filePaths : List String) :
    generateDockerfile filePaths = "FROM scratch\n" ++ directiveLines filePaths ∧
      generateDockerfile ([] : List String) = "FROM scratch\n" := by
  refine ⟨foldl_append_directives filePaths "FROM scratch\n", rfl⟩

/-! ## The archive builder -/

/-- One entry of the tar archive: the `tar.Header` fields set by
`createArchive` (`Name` = the file's path, `Mode` = `0600`, `Size` = the
size reported by `os.Stat`) followed by the bytes written after the header
(the bytes returned by `ioutil.ReadFile`). -/
structure TarEntry where
  name : String
  mode : Nat
  size : Nat
  body : List Char
deriving DecidableEq

/-- The errors of `createArchive` (constructor variant, source lines
115-155), one constructor per `fmt.Errorf` site, carrying exactly the
values the source formats into the message: archive creation and the
per-file stat/read failures carry the offending path and the cause; the tar
header/body write failures carry only the cause. -/
inductive ArchiveError where
  | createFail (name : String) (cause : String)
  | statFail (path : String) (cause : String)
  | readFail (path : String) (cause : String)
  | writeHeaderFail (cause : String)
  | writeBodyFail (cause : String)
deriving DecidableEq

/-- The path attached to an error, if any. -/
def ArchiveError.errPath : ArchiveError → Option String
  | .createFail n _ => some n
  | .statFail p _ => some p
  | .readFail p _ => some p
  | .writeHeaderFail _ => none
  | .writeBodyFail _ => none

/-- The underlying cause attached to an error (every constructor carries
one: every `fmt.Errorf` site of this function wraps the cause with `%w`). -/
def ArchiveError.errCause : ArchiveError → String
  | .createFail _ c => c
  | .statFail _ c => c
  | .readFail _ c => c
  | .writeHeaderFail c => c
  | .writeBodyFail c => c

/-- The message of each error as the source's `fmt.Errorf` format strings
produce it (`%q` quotes the path, `: %w` appends the cause's message). -/
def ArchiveError.render : ArchiveError → String
  | .createFail n c => "failed to create tar archive \"" ++ n ++ "\": " ++ c
  | .statFail p c => "failed to read file info \"" ++ p ++ "\": " ++ c
  | .readFail p c => "failed to read file \"" ++ p ++ "\": " ++ c
  | .writeHeaderFail c => "failed to write tar header: " ++ c
  | .writeBodyFail c => "failed to write tar body: " ++ c

/-- Oracle for the filesystem operations of one `createArchive` run: the
result of `os.Create` on the archive path, of `os.Stat` (the reported size)
and `ioutil.ReadFile` per input path, and of the tar header/body writes per
entry index.  An `Except.error` value is the underlying cause's message. -/
structure FsModel where
  create : String → Except String Unit
  stat : String → Except String Nat
  read : String → Except String (List Char)
  writeHeader : Nat → Except String Unit
  writeBody : Nat → Except String Unit

/-- The loop of `createArchive` over the remaining paths (`k` is the index
of the current entry): stat the file, read it, write the header
`{Name: path, Mode: 0600, Size: stat size}`, write the body; return the
wrapped error of the first failing operation, with no retry. -/
def createArchiveAux (m : FsModel) : Nat → List String →
    Except ArchiveError (List TarEntry)
  | _, [] => .ok []
  | k, p :: rest =>
    match m.stat p with
    | .error c => .error (.statFail p c)
    | .ok sz =>
      match m.read p with
      | .error c => .error (.readFail p c)
      | .ok bs =>
        match m.writeHeader k with
        | .error c => .error (.writeHeaderFail c)
        | .ok _ =>
          match m.writeBody k with
          | .error c => .error (.writeBodyFail c)
          | .ok _ =>
            (createArchiveAux m (k + 1) rest).map
              (fun es => ⟨p, 0o600, sz, bs⟩ :: es)

/-- `RandomImageFactory.createArchive`: create the archive file at `name`,
then append one entry per input path, in input order. -/
def createArchive (m : FsModel) (name : String) (filePaths : List String) :
    Except ArchiveError (List TarEntry) :=
  match m.create name with
  | .error c => .error (.createFail name c)
  | .ok _ => createArchiveAux m 0 filePaths

/-- The entry a fault-free run records for path `p`. -/
def entryOf (m : FsModel) (p : String) : TarEntry :=
  ⟨p, 0o600, (m.stat p).toOption.getD 0, (m.read p).toOption.getD []⟩

/-- A fault-free archive loop returns one entry per path, in order. -/
theorem createArchiveAux_ok (m : FsModel)
    (hstat : ∀ p, m.stat p = (m.read p).map List.length)
    (hwh : ∀ k, m.writeHeader k = .ok ())
    (hwb : ∀ k, m.writeBody k = .ok ()) :
    ∀ (paths : List String) (k : Nat),
      (∀ p ∈ paths, ∃ bs, m.read p = .ok bs) →
      createArchiveAux m k paths = .ok (paths.map (entryOf m)) := by
  intro paths
  induction paths with
  | nil => intro k _; rfl
  | cons p rest ih =>
    intro k hread
    obtain ⟨bs, hbs⟩ := hread p (List.mem_cons_self p rest)
    have hsz : m.stat p = .ok bs.length := by rw [hstat, hbs]; rfl
    simp only [createArchiveAux, hsz, hbs, hwh k, hwb k,
      ih (k + 1) (fun q hq => hread q (List.mem_cons_of_mem p hq)), Except.map,
      List.map_cons]
    have he : entryOf m p = ⟨p, 0o600, bs.length, bs⟩ := by
      simp [entryOf, hsz, hbs, Except.toOption]
    rw [he]

/-- Claim C8: for a fault-free run over the shuffled generated files with
the manifest path appended last (`files := append(f.allGeneratedFiles,
dockerfilePath)` in `GenerateImage`), the archive holds exactly
`files.length + 1` entries — one per generated file plus the manifest, in
the input list's order with the manifest last — and each entry's recorded
`Size` field equals the exact byte length of that entry's written body.
The stat/read consistency hypothesis `hstat` says the size `os.Stat`
reports is the length of what `ioutil.ReadFile` returns (no concurrent
modification between the two calls). -/
theorem C8_archive_entries (m : FsModel) (name : String)
    (files : List String) (dockerfilePath : String)
    (hcreate : m.create name = .ok ())
    (hstat : ∀ p, m.stat p = (m.read p).map List.length)
    (hread : ∀ p ∈ files ++ [dockerfilePath], ∃ bs, m.read p = .ok bs)
    (hwh : ∀ k, m.writeHeader k = .ok ())
    (hwb : ∀ k, m.writeBody k = .ok ()) :
    createArchive m name (files ++ [dockerfilePath]) =
      .ok ((files ++ [dockerfilePath]).map (entryOf m)) ∧
    ((files ++ [dockerfilePath]).map (entryOf m)).length = files.length + 1 ∧
    ∀ e ∈ (files ++ [dockerfilePath]).map (entryOf m),
      e.size = e.body.length := by
  refine ⟨?_, by simp, ?_⟩
  · unfold createArchive
    rw [hcreate]
    exact createArchiveAux_ok m hstat hwh hwb (files ++ [dockerfilePath]) 0 hread
  · intro e he
    rcases List.mem_map.mp he with ⟨p, hp, rfl⟩
    obtain ⟨bs, hbs⟩ := hread p hp
    have hsz : m.stat p = .ok bs.length := by rw [hstat, hbs]; rfl
    simp [entryOf, hsz, hbs, Except.toOption]

/-- A concrete fault-free filesystem oracle: every file reads as the single
byte `x`, stat agrees, all writes succeed. -/
def archiveModelOk : FsModel where
  create := fun _ => .ok ()
  stat := fun _ => .ok 1
  read := fun _ => .ok ['x']
  writeHeader := fun _ => .ok ()
  writeBody := fun _ => .ok ()

/-- Witness for C8: archiving two generated files plus the manifest under
the fault-free oracle yields exactly the three expected entries. -/
theorem C8_witness :
    createArchive archiveModelOk "context.tar" (["f1", "f2"] ++ ["d"]) =
      .ok ((["f1", "f2"] ++ ["d"]).map (entryOf archiveModelOk)) :=
  (C8_archive_entries archiveModelOk "context.tar" ["f1", "f2"] "d" rfl
    (fun _ => rfl) (fun _p _ => ⟨['x'], rfl⟩) (fun _ => rfl) (fun _ => rfl)).1

/-- The errors of the legacy `createArchive` (struct-field variant, source
lines 335-375), one constructor per `fmt.Errorf` site, carrying exactly the
values the source passes to it.  The archive-creation site passes both the
path and the cause; the tar header/body write sites pass the cause.  The
stat and read sites, however, are
`fmt.Errorf("failed to read file info %q: %w", err)` and
`fmt.Errorf("failed to read file %q: %w", err)` (lines 349 and 354): the
`filePath` argument is missing, so `%q` consumes the cause (quoting its
message text) and `%w` has no operand — those errors carry no path and no
`%w`-wrapped cause; only the cause's text survives, quoted into the
message. -/
inductive ArchiveErrorLegacy where
  | createFail (name : String) (cause : String)
  | statFail (cause : String)
  | readFail (cause : String)
  | writeHeaderFail (cause : String)
  | writeBodyFail (cause : String)
deriving DecidableEq

/-- The path attached to a legacy error, if any: only the archive-creation
site formats one. -/
def ArchiveErrorLegacy.errPath : ArchiveErrorLegacy → Option String
  | .createFail n _ => some n
  | .statFail _ => none
  | .readFail _ => none
  | .writeHeaderFail _ => none
  | .writeBodyFail _ => none

/-- The `%w`-wrapped (unwrappable) cause of a legacy error, if any: the
stat/read sites hand their cause to `%q` instead of `%w`, so nothing is
wrapped there. -/
def ArchiveErrorLegacy.wrappedCause : ArchiveErrorLegacy → Option String
  | .createFail _ c => some c
  | .statFail _ => none
  | .readFail _ => none
  | .writeHeaderFail c => some c
  | .writeBodyFail c => some c

/-- The message of each legacy error as Go's `fmt` produces it: with the
path argument missing, `%q` prints the cause's message quoted and the
operand-less `%w` renders as a `MISSING` marker. -/
def ArchiveErrorLegacy.render : ArchiveErrorLegacy → String
  | .createFail n c => "failed to create tar archive \"" ++ n ++ "\": " ++ c
  | .statFail c => "failed to read file info \"" ++ c ++ "\": %!w(MISSING)"
  | .readFail c => "failed to read file \"" ++ c ++ "\": %!w(MISSING)"
  | .writeHeaderFail c => "failed to write tar header: " ++ c
  | .writeBodyFail c => "failed to write tar body: " ++ c

/-- The loop of the legacy `createArchive`: identical stat → read → write
header → write body sequence and identical header fields, differing from
the constructor variant only in the errors it constructs. -/
def createArchiveLegacyAux (m : FsModel) : Nat → List String →
    Except ArchiveErrorLegacy (List TarEntry)
  | _, [] => .ok []
  | k, p :: rest =>
    match m.stat p with
    | .error c => .error (.statFail c)
    | .ok sz =>
      match m.read p with
      | .error c => .error (.readFail c)
      | .ok bs =>
        match m.writeHeader k with
        | .error c => .error (.writeHeaderFail c)
        | .ok _ =>
          match m.writeBody k with
          | .error c => .error (.writeBodyFail c)
          | .ok _ =>
            (createArchiveLegacyAux m (k + 1) rest).map
              (fun es => ⟨p, 0o600, sz, bs⟩ :: es)

/-- Legacy `RandomImageFactory.createArchive`: create the archive file at
`name`, then append one entry per input path, in input order. -/
def createArchiveLegacy (m : FsModel) (name : String) (filePaths : List String) :
    Except ArchiveErrorLegacy (List TarEntry) :=
  match m.create name with
  | .error c => .error (.createFail name c)
  | .ok _ => createArchiveLegacyAux m 0 filePaths

/-- A concrete oracle whose stat calls fail with cause `nope`. -/
def archiveModelStatFail : FsModel where
  create := fun _ => .ok ()
  stat := fun _ => .error "nope"
  read := fun _ => .ok ['x']
  writeHeader := fun _ => .ok ()
  writeBody := fun _ => .ok ()

/-- A concrete oracle whose tar header writes fail with cause `boom`. -/
def archiveModelHeaderFail : FsModel where
  create := fun _ => .ok ()
  stat := fun _ => .ok 1
  read := fun _ => .ok ['x']
  writeHeader := fun _ => .error "boom"
  writeBody := fun _ => .ok ()

/-- Claim C9 (amended): in both `createArchive` variants every filesystem
failure is fatal and propagates immediately as the error of the first
failing operation, with no retry.  In the constructor-based variant every
failure carries the `%w`-wrapped cause, and the archive-creation, stat and
read failures additionally carry the offending path, while the tar header
and body write failures carry no path.  In the legacy struct-field variant
the archive-creation failure carries the path and wrapped cause and the tar
write failures carry the wrapped cause, but the stat and read failures —
whose `fmt.Errorf` calls omit the `filePath` argument — carry neither a
path nor a wrapped cause.  Stated for the first path of the input list,
covering each failure site of both variants. -/
theorem C9_error_propagation (m : FsModel) (name p : String)
    (rest : List String) :
    (∀ c, m.create name = .error c →
      createArchive m name (p :: rest) = .error (.createFail name c) ∧
        (ArchiveError.createFail name c).errPath = some name ∧
        (ArchiveError.createFail name c).errCause = c) ∧
    (∀ c, m.create name = .ok () → m.stat p = .error c →
      createArchive m name (p :: rest) = .error (.statFail p c) ∧
        (ArchiveError.statFail p c).errPath = some p ∧
        (ArchiveError.statFail p c).errCause = c) ∧
    (∀ c sz, m.create name = .ok () → m.stat p = .ok sz →
      m.read p = .error c →
      createArchive m name (p :: rest) = .error (.readFail p c) ∧
        (ArchiveError.readFail p c).errPath = some p ∧
        (ArchiveError.readFail p c).errCause = c) ∧
    (∀ c sz bs, m.create name = .ok () → m.stat p = .ok sz →
      m.read p = .ok bs → m.writeHeader 0 = .error c →
      createArchive m name (p :: rest) = .error (.writeHeaderFail c) ∧
        (ArchiveError.writeHeaderFail c).errPath = none ∧
        (ArchiveError.writeHeaderFail c).errCause = c) ∧
    (∀ c sz bs, m.create name = .ok () → m.stat p = .ok sz →
      m.read p = .ok bs → m.writeHeader 0 = .ok () →
      m.writeBody 0 = .error c →
      createArchive m name (p :: rest) = .error (.writeBodyFail c) ∧
        (ArchiveError.writeBodyFail c).errPath = none ∧
        (ArchiveError.writeBodyFail c).errCause = c) ∧
    (∀ c, m.create name = .error c →
      createArchiveLegacy m name (p :: rest) = .error (.createFail name c) ∧
        (ArchiveErrorLegacy.createFail name c).errPath = some name ∧
        (ArchiveErrorLegacy.createFail name c).wrappedCause = some c) ∧
    (∀ c, m.create name = .ok () → m.stat p = .error c →
      createArchiveLegacy m name (p :: rest) = .error (.statFail c) ∧
        (ArchiveErrorLegacy.statFail c).errPath = none ∧
        (ArchiveErrorLegacy.statFail c).wrappedCause = none) ∧
    (∀ c sz, m.create name = .ok () → m.stat p = .ok sz →
      m.read p = .error c →
      createArchiveLegacy m name (p :: rest) = .error (.readFail c) ∧
        (ArchiveErrorLegacy.readFail c).errPath = none ∧
        (ArchiveErrorLegacy.readFail c).wrappedCause = none) ∧
    (∀ c sz bs, m.create name = .ok () → m.stat p = .ok sz →
      m.read p = .ok bs → m.writeHeader 0 = .error c →
      createArchiveLegacy m name (p :: rest) = .error (.writeHeaderFail c) ∧
        (ArchiveErrorLegacy.writeHeaderFail c).errPath = none ∧
        (ArchiveErrorLegacy.writeHeaderFail c).wrappedCause = some c) ∧
    (∀ c sz bs, m.create name = .ok () → m.stat p = .ok sz →
      m.read p = .ok bs → m.writeHeader 0 = .ok () →
      m.writeBody 0 = .error c →
      createArchiveLegacy m name (p :: rest) = .error (.writeBodyFail c) ∧
        (ArchiveErrorLegacy.writeBodyFail c).errPath = none ∧
        (ArchiveErrorLegacy.writeBodyFail c).wrappedCause = some c) := by
  refine ⟨fun c hc => ?_, fun c hc hs => ?_, fun c sz hc hs hr => ?_,
    fun c sz bs hc hs hr hw => ?_, fun c sz bs hc hs hr hw hb => ?_,
    fun c hc => ?_, fun c hc hs => ?_, fun c sz hc hs hr => ?_,
    fun c sz bs hc hs hr hw => ?_, fun c sz bs hc hs hr hw hb => ?_⟩
  · unfold createArchive
    rw [hc]
    exact ⟨rfl, rfl, rfl⟩
  · unfold createArchive createArchiveAux
    rw [hc, hs]
    exact ⟨rfl, rfl, rfl⟩
  · unfold createArchive createArchiveAux
    rw [hc, hs, hr]
    exact ⟨rfl, rfl, rfl⟩
  · unfold createArchive createArchiveAux
    rw [hc, hs, hr, hw]
    exact ⟨rfl, rfl, rfl⟩
  · unfold createArchive createArchiveAux
    rw [hc, hs, hr, hw, hb]
    exact ⟨rfl, rfl, rfl⟩
  · unfold createArchiveLegacy
    rw [hc]
    exact ⟨rfl, rfl, rfl⟩
  · unfold createArchiveLegacy createArchiveLegacyAux
    rw [hc, hs]
    exact ⟨rfl, rfl, rfl⟩
  · unfold createArchiveLegacy createArchiveLegacyAux
    rw [hc, hs, hr]
    exact ⟨rfl, rfl, rfl⟩
  · unfold createArchiveLegacy createArchiveLegacyAux
    rw [hc, hs, hr, hw]
    exact ⟨rfl, rfl, rfl⟩
  · unfold createArchiveLegacy createArchiveLegacyAux
    rw [hc, hs, hr, hw, hb]
    exact ⟨rfl, rfl, rfl⟩

/-- Witness for C9 (amended): a concrete stat failure in the constructor
variant aborts the run with an error carrying the offending path and the
cause. -/
theorem C9_witness :
    createArchive archiveModelStatFail "context.tar" ["q"] =
      .error (.statFail "q" "nope") ∧
    (ArchiveError.statFail "q" "nope").errPath = some "q" ∧
    (ArchiveError.statFail "q" "nope").errCause = "nope" :=
  (C9_error_propagation archiveModelStatFail "context.tar" "q" []).2.1
    "nope" rfl rfl

/-- Counterexample to Claim C9 as stated, at both of its cited variants:
in the constructor variant a tar-header write failure
(`fmt.Errorf("failed to write tar header: %w", err)`) aborts the run with an
error that carries the cause but NOT the path of the offending file; in the
legacy variant even a stat failure — whose
`fmt.Errorf("failed to read file info %q: %w", err)` omits the `filePath`
argument — aborts the run with an error carrying neither the path nor a
`%w`-wrapped cause.  So not every filesystem failure's error carries both
the path and the underlying cause. -/
theorem C9_counterexample :
    createArchive archiveModelHeaderFail "context.tar" ["file0"] =
      .error (.writeHeaderFail "boom") ∧
    (ArchiveError.writeHeaderFail "boom").errPath = none ∧
    createArchiveLegacy archiveModelStatFail "context.tar" ["file0"] =
      .error (.statFail "nope") ∧
    (ArchiveErrorLegacy.statFail "nope").errPath = none ∧
    (ArchiveErrorLegacy.statFail "nope").wrappedCause = none :=
  ⟨rfl, rfl, rfl, rfl, rfl⟩

end ImageGen
